import Mathlib

/-!
Shallow embedding of the waterfurnace-py protocol client (src/awl.py) and its
timed cache (src/timed_cache.py), with theorems settling the frozen claims
about the transaction table, the receive loop, the command send path, the
session-renewal handler, the timed cache, and the read attribute list.
-/

/-- JSON values, as produced by json.loads and consumed by the client.
Numbers are modelled as integers (every number the protocol exchanges is an
int). -/
inductive Json where
  | null
  | bool (b : Bool)
  | num (n : Int)
  | str (s : String)
  | arr (elems : List Json)
  | obj (fields : List (String × Json))

/-- Association-list lookup, the semantics of dict indexing for the
string-keyed JSON objects and caches (parsed JSON objects have unique keys). -/
def dictLookup {κ α : Type} [DecidableEq κ] : List (κ × α) → κ → Option α
  | [], _ => none
  | (k, v) :: rest, key => if k = key then some v else dictLookup rest key

/-- Python dict assignment: replace the value in place when the key is
present, append a new entry otherwise. -/
def dictInsert {κ α : Type} [DecidableEq κ] (l : List (κ × α)) (key : κ) (v : α) :
    List (κ × α) :=
  if (dictLookup l key).isSome then
    l.map (fun p => if p.1 = key then (key, v) else p)
  else l ++ [(key, v)]

/-- Python dict.pop: remove the (first, and with unique keys the only) entry
with the given key. -/
def dictErase {κ α : Type} [DecidableEq κ] (l : List (κ × α)) (key : κ) :
    List (κ × α) :=
  l.eraseP (fun p => decide (p.1 = key))

/-- The keys of a dict, in insertion order. -/
def dictKeys {κ α : Type} (l : List (κ × α)) : List κ := l.map Prod.fst

/-- dict.get on a JSON value: a field lookup on objects, None otherwise. -/
def Json.get : Json → String → Option Json
  | .obj fields, key => dictLookup fields key
  | _, _ => none

/-- Python truthiness of a JSON value (used for data.get with err and for
the max-zones check). -/
def Json.truthy : Json → Bool
  | .null => false
  | .bool b => b
  | .num n => n != 0
  | .str s => s != ""
  | .arr xs => !xs.isEmpty
  | .obj fs => !fs.isEmpty

/-- Truthiness of dict.get results: None is falsy. -/
def optTruthy : Option Json → Bool
  | none => false
  | some j => j.truthy

/-- The exception classes defined at the top of src/awl.py.  AWLLoginError,
AWLConnectionError and AWLTransactionError are siblings; AWLTransactionTimeout
subclasses AWLTransactionError and is kept as its own constructor. -/
inductive AWLError where
  | loginError (msg : String)
  | connectionError (msg : String)
  | transactionError (msg : Option Json)
  | transactionTimeout (msg : String)

/-- The observable state of an asyncio.Future held in the transactions dict:
pending, resolved with a result, resolved with an exception, or cancelled
(a transaction timeout cancels the future in place). -/
inductive FutureState where
  | pending
  | result (data : Json)
  | failed (e : AWLError)
  | cancelled

/-- asyncio.Future.done: true once resolved, failed or cancelled. -/
def FutureState.done : FutureState → Bool
  | .pending => false
  | _ => true

/-- The mutable state of an AWL client instance that the claims concern:
the transactions dict, the transaction-id cursor, the stored login payload,
and whether a websockets connection is present and open. -/
structure AWLState where
  transactions : List (Nat × FutureState)
  transaction_id : Nat
  login_data : Option Json
  connected : Bool

/-- The state set up by AWL.__init__. -/
def initState : AWLState :=
  { transactions := [], transaction_id := 0, login_data := none, connected := false }

/-- One advance of the transaction-id cursor:
(tid + 1) % 256 or 1, from AWL.__next_transaction_id. -/
def nextTidStep (tid : Nat) : Nat :=
  if (tid + 1) % 256 = 0 then 1 else (tid + 1) % 256

/-- The loop condition of AWL.__next_transaction_id: a candidate id is usable
when it is not in the transactions dict or its future is done. -/
def tidEligible (txs : List (Nat × FutureState)) (tid : Nat) : Bool :=
  match dictLookup txs tid with
  | none => true
  | some f => f.done

/-- The capacity error raised by AWL.__next_transaction_id. -/
def capacityError : AWLError :=
  .transactionError (some (.str "Maximum 255 transactions in progress"))

/-- The search loop of AWL.__next_transaction_id: advance the cursor, stop at
the first eligible id, and raise the capacity error after a full cycle back to
the initial id.  Fuel bounds the recursion; 256 steps always cover a full
cycle (running out of fuel is mapped to the capacity error as well, which on
reachable states coincides with the cycle check, see the theorems below). -/
def nextTidLoop (txs : List (Nat × FutureState)) (initial : Nat) :
    Nat → Nat → Option (Except AWLError Nat)
  | _, 0 => none
  | cur, fuel + 1 =>
    if tidEligible txs (nextTidStep cur) then some (.ok (nextTidStep cur))
    else if nextTidStep cur = initial then some (.error capacityError)
    else nextTidLoop txs initial (nextTidStep cur) fuel

/-- AWL.__next_transaction_id: initial is the current cursor (or 1 when the
cursor is 0), and the cursor is left at the returned id. -/
def next_transaction_id (st : AWLState) : Except AWLError (Nat × AWLState) :=
  match nextTidLoop st.transactions
      (if st.transaction_id = 0 then 1 else st.transaction_id)
      st.transaction_id 256 with
  | some (.ok tid) => .ok (tid, { st with transaction_id := tid })
  | some (.error e) => .error e
  | none => .error capacityError

/-- AWL.__start_transaction: register a fresh pending future under tid. -/
def start_transaction (tid : Nat) (st : AWLState) : AWLState :=
  { st with transactions := dictInsert st.transactions tid .pending }

/-- The allocate operation of the transaction table: pick the next id and
register its pending slot (AWL.__next_transaction_id followed by
AWL.__start_transaction, as performed by AWL._command). -/
def allocate (st : AWLState) : Except AWLError (Nat × AWLState) :=
  match next_transaction_id st with
  | .ok (tid, st1) => .ok (tid, start_transaction tid st1)
  | .error e => .error e

/-- Whether a live (registered and still incomplete) transaction holds tid. -/
def isLive (st : AWLState) (tid : Nat) : Bool :=
  match dictLookup st.transactions tid with
  | some f => !f.done
  | none => false

/-- The number of live transactions in the table. -/
def liveCount (txs : List (Nat × FutureState)) : Nat :=
  (txs.filter (fun p => !p.2.done)).length

/-- The keys holding live transactions, in insertion order. -/
def liveKeys (txs : List (Nat × FutureState)) : List Nat :=
  (txs.filter (fun p => !p.2.done)).map Prod.fst

/-- AWL.__reset_transaction_id: drain the transactions dict, cancelling every
future for which cancel() succeeds (exactly the pending ones), reset the
cursor to 0 and clear the stored login payload.  Returns the new state and
the tids whose futures were cancelled. -/
def reset_transaction_id (st : AWLState) : AWLState × List Nat :=
  ({ transactions := [], transaction_id := 0, login_data := none,
     connected := st.connected },
   liveKeys st.transactions)

/-- Conversion of an inbound JSON tid to a key of the transactions dict.
Dict keys are the allocated integers; a frame whose tid is not a
non-negative integer matches no key (dict.pop then raises KeyError, exactly
as for an absent integer key). -/
def tidToKey : Json → Option Nat
  | .num n => if n < 0 then none else some n.toNat
  | _ => none

/-- What the receive path observably did to the table for one frame. -/
inductive RecvOutcome where
  | committed (tid : Nat) (data : Json)
  | aborted (tid : Nat) (e : AWLError)
  | unknownCommit (tid : Json)
  | unknownAbort (tid : Json)
  | invalidState (tid : Nat)

/-- AWL.__commit_transaction: pop the future for tid and set its result.
A missing key raises KeyError, which is caught and logged (unknownCommit).
Setting a result on an already-done future raises InvalidStateError, which
is not caught; note the entry has already been popped at that point. -/
def commit_transaction (tidJ : Json) (data : Json) (st : AWLState) :
    AWLState × RecvOutcome :=
  match tidToKey tidJ with
  | none => (st, .unknownCommit tidJ)
  | some tid =>
    match dictLookup st.transactions tid with
    | none => (st, .unknownCommit tidJ)
    | some fut =>
      if fut.done then
        ({ st with transactions := dictErase st.transactions tid },
         .invalidState tid)
      else
        ({ st with transactions := dictErase st.transactions tid },
         .committed tid data)

/-- AWL.__abort_transaction: pop the future for tid and set an
AWLTransactionError carrying the err value.  A missing key raises KeyError,
caught and logged (unknownAbort).  Setting an exception on an already-done
future raises InvalidStateError, which is not caught. -/
def abort_transaction (tidJ : Json) (err : Option Json) (st : AWLState) :
    AWLState × RecvOutcome :=
  match tidToKey tidJ with
  | none => (st, .unknownAbort tidJ)
  | some tid =>
    match dictLookup st.transactions tid with
    | none => (st, .unknownAbort tidJ)
    | some fut =>
      if fut.done then
        ({ st with transactions := dictErase st.transactions tid },
         .invalidState tid)
      else
        ({ st with transactions := dictErase st.transactions tid },
         .aborted tid (.transactionError err))

/-- A transaction timeout: asyncio.wait_for cancels the registered future in
place; the dict entry remains, now holding a done (cancelled) future.  A
cancel on an already-done future is a no-op. -/
def timeout_transaction (tid : Nat) (st : AWLState) : AWLState :=
  { st with transactions :=
      st.transactions.map (fun p =>
        if p.1 = tid then (p.1, if p.2.done then p.2 else .cancelled) else p) }

/-- AWL.__start_transaction's awaiting wrapper __await_transaction_result:
a timeout becomes AWLTransactionTimeout, a cancellation becomes
AWLTransactionError with the text Transaction cancelled, a stored exception
propagates, a stored result is returned.  None while still pending (the
await has not returned). -/
def await_transaction_result (timedOut : Bool) (fut : FutureState) :
    Option (Except AWLError Json) :=
  if timedOut then some (.error (.transactionTimeout "Transaction timed out"))
  else
    match fut with
    | .pending => none
    | .result d => some (.ok d)
    | .failed e => some (.error e)
    | .cancelled =>
        some (.error (.transactionError (some (.str "Transaction cancelled"))))

/-- Python exceptions of the runtime itself that the receive path can hit. -/
inductive PyErr where
  | keyError
  | typeError
  | invalidStateError
deriving DecidableEq

/-- Python subscripting data with a string key: KeyError when an object lacks
the key, TypeError when the value is not an object (json.loads may return a
list, string or number). -/
def pySubscript (j : Json) (key : String) : Except PyErr Json :=
  match j with
  | .obj fields =>
    match dictLookup fields key with
    | some v => .ok v
    | none => .error .keyError
  | _ => .error .typeError

/-- An inbound websocket frame: either not valid JSON (json.loads raises
ValueError) or a parsed JSON value. -/
inductive RawFrame where
  | malformed
  | parsed (data : Json)

/-- How one pass over the receive loop body ended. -/
inductive LoopExit where
  | socketEnded
  | returned
  | raised (e : PyErr)
deriving DecidableEq

/-- The body of AWL.__websockets_receive for a single frame, returning the
new state, the outcome delivered to the table (if any), and whether the loop
stops (some exit) or continues (none).  Transcribed branch by branch:
a malformed frame is logged and the coroutine returns; a missing tid
(KeyError) is logged and the coroutine returns; a truthy err field aborts the
transaction and the coroutine returns; otherwise the frame is committed and
the loop continues.  An InvalidStateError out of commit or abort (a frame for
a registered but already-done future) propagates and ends the loop. -/
def websockets_receive_step :
    AWLState → RawFrame → AWLState × Option RecvOutcome × Option LoopExit
  | st, .malformed => (st, none, some .returned)
  | st, .parsed data =>
    match pySubscript data "tid" with
    | .error .keyError => (st, none, some .returned)
    | .error e => (st, none, some (.raised e))
    | .ok tidJ =>
      if optTruthy (data.get "err") then
        match abort_transaction tidJ (data.get "err") st with
        | (st1, .invalidState t) =>
            (st1, some (.invalidState t), some (.raised .invalidStateError))
        | (st1, out) => (st1, some out, some .returned)
      else
        match commit_transaction tidJ data st with
        | (st1, .invalidState t) =>
            (st1, some (.invalidState t), some (.raised .invalidStateError))
        | (st1, out) => (st1, some out, none)

/-- AWL.__websockets_receive over a finite stream of frames: the async-for
ends with socketEnded when the frames run out (connection closed), with
returned on an explicit return, or with raised when an exception escapes the
body. -/
def websockets_receive (st : AWLState) (frames : List RawFrame) :
    AWLState × List RecvOutcome × LoopExit :=
  match frames with
  | [] => (st, [], .socketEnded)
  | f :: rest =>
    match websockets_receive_step st f with
    | (st1, out, some ex) => (st1, out.toList, ex)
    | (st1, out, none) =>
      let r := websockets_receive st1 rest
      (r.1, out.toList ++ r.2.1, r.2.2)

/-- The fixed source tag sent with every command. -/
def COMMAND_SOURCE : String := "consumer dashboard"

/-- Whether the websockets send in AWL._command succeeds or raises
websockets.ConnectionClosed. -/
inductive SendOutcome where
  | ok
  | connectionClosed

/-- The observable steps of AWL._command, in program order. -/
inductive CommandEvent where
  | allocatedTid (tid : Nat)
  | registeredTransaction (tid : Nat)
  | sendAttempted (payload : Json)
  | tableReset

/-- The frame built by AWL._command: the caller kwargs updated with cmd, tid
and source (dict.update semantics: replace in place or append). -/
def buildPayload (cmd : String) (tid : Nat) (args : List (String × Json)) : Json :=
  .obj (dictInsert (dictInsert (dictInsert args "cmd" (.str cmd))
          "tid" (.num tid)) "source" (.str COMMAND_SOURCE))

/-- AWL._command: reject when a non-login command has no login payload or
when no open websockets connection exists (raising AWLConnectionError with
the connect-first message); otherwise allocate the next tid, register the
pending transaction, then attempt the send.  A send on a closed connection
resets the transaction table and raises AWLConnectionError.  Returns the
resulting state, the ordered events, and the allocated tid or the error. -/
def _command (cmd : String) (args : List (String × Json)) (st : AWLState)
    (send : SendOutcome) : AWLState × List CommandEvent × Except AWLError Nat :=
  if (cmd != "login" && st.login_data.isNone) || !st.connected then
    (st, [], .error (.connectionError "Call awl.connect() before making requests"))
  else
    match next_transaction_id st with
    | .error e => (st, [], .error e)
    | .ok (tid, st1) =>
      let payload := buildPayload cmd tid args
      let st2 := start_transaction tid st1
      match send with
      | .ok =>
        (st2,
         [.allocatedTid tid, .registeredTransaction tid, .sendAttempted payload],
         .ok tid)
      | .connectionClosed =>
        ((reset_transaction_id st2).1,
         [.allocatedTid tid, .registeredTransaction tid, .sendAttempted payload,
          .tableReset],
         .error (.connectionError "Websockets connection closed"))

/-- AWL.__websockets_login: reset the transaction table (and so the stored
login payload), send the login command carrying the session id, and on a
successful reply install the reply as the new login payload.  The reply
oracle stands for how the receive loop resolves the login transaction:
ok data for a success frame, error err for an err frame. -/
def websockets_login (sid : String) (st : AWLState) (send : SendOutcome)
    (reply : Except Json Json) : AWLState × Except AWLError Json :=
  let stR := (reset_transaction_id st).1
  match _command "login" [("sessionid", Json.str sid)] stR send with
  | (st1, _, .error e) => (st1, .error e)
  | (st1, _, .ok tid) =>
    match reply with
    | .ok data =>
      let st2 := (commit_transaction (.num tid) data st1).1
      ({ st2 with login_data := some data }, .ok data)
    | .error errJ =>
      ((abort_transaction (.num tid) (some errJ) st1).1,
       .error (.transactionError (some errJ)))

/-- The steps of AWL.__websockets_handler when the renewal timer wins the
race, in program order: cancel the receive task, then AWL.__renew_session
(close the socket, HTTP logout, HTTP login, reconnect to the same websockets
uri) which restarts the receive loop and runs AWL.__websockets_login. -/
inductive HandlerEvent where
  | cancelReceiveTask
  | closeWebsocket
  | httpLogout
  | httpLogin
  | websocketsConnect (uri : String)
  | resetTable
  | loginCommandSent (tid : Nat)

/-- The renewal branch of AWL.__websockets_handler (timeout_task finished
first).  cancelSettled tells whether the cancelled receive task settled
within the 1.0 second grace period of asyncio.wait_for; when it does not,
AWLConnectionError is raised.  Otherwise the session is renewed against the
already-known uri: the table is reset (cancelling every in-flight
transaction) and the login command is sent on the fresh connection.  Returns
the new state, the events in order, the tids cancelled by the reset, and the
tid allocated to the login command. -/
def handler_on_timeout (uri sid : String) (st : AWLState) (cancelSettled : Bool) :
    Except AWLError (AWLState × List HandlerEvent × List Nat × Nat) :=
  if !cancelSettled then
    .error (.connectionError "Could not cancel receive task during session renewal")
  else
    let stClosed := { st with connected := false }
    let stOpen := { stClosed with connected := true }
    let reset := reset_transaction_id stOpen
    match _command "login" [("sessionid", Json.str sid)] reset.1 .ok with
    | (st1, _, .ok tid) =>
      .ok (st1,
           [.cancelReceiveTask, .closeWebsocket, .httpLogout, .httpLogin,
            .websocketsConnect uri, .resetTable, .loginCommandSent tid],
           reset.2, tid)
    | (_, _, .error e) => .error e

/-- The state closed over by one timed_cache wrapper in src/timed_cache.py:
the shared cache dict and the single shared expiry timestamp. -/
structure CacheState where
  cache : List (String × Json)
  next_update : Nat

/-- Key generation of timed_cache._wrapped: module, name and the repr of the
argument tuple, joined with hash marks. -/
def mkCacheKey (modName fname argsRepr : String) : String :=
  modName ++ "#" ++ fname ++ "#" ++ argsRepr

/-- The global sweep at the top of timed_cache._wrapped: once now has reached
the shared expiry timestamp, the entire cache dict is cleared and the
timestamp advances to now plus the configured window. -/
def cacheSweep (delta : Nat) (st : CacheState) (now : Nat) : CacheState :=
  if st.next_update ≤ now then { cache := [], next_update := now + delta } else st

/-- One invocation of a timed_cache-wrapped coroutine function, called and
awaited: sweep if expired, then return the cached value on a hit without
invoking the wrapped operation; on a miss invoke it (fres is its outcome):
a raised exception propagates with nothing stored, a returned value is
stored before being handed back (timed_cache._wrap_coroutine_storage).
The returned Bool records whether the wrapped operation was invoked. -/
def cached_call (delta : Nat) (st : CacheState) (now : Nat) (key : String)
    (fres : Except String Json) : CacheState × Except String Json × Bool :=
  match dictLookup (cacheSweep delta st now).cache key with
  | some v => (cacheSweep delta st now, .ok v, false)
  | none =>
    match fres with
    | .error e => (cacheSweep delta st now, .error e, true)
    | .ok v =>
      ({ cacheSweep delta st now with
          cache := dictInsert (cacheSweep delta st now).cache key v },
       .ok v, true)

/-- AWL.AWL_GATEWAY_RLIST: the fixed baseline attribute list of read. -/
def AWL_GATEWAY_RLIST : List String := [
  "ActualCompressorSpeed",
  "AirflowCurrentSpeed",
  "AOCEnteringWaterTemp",
  "AuroraOutputCC",
  "AuroraOutputCC2",
  "AuroraOutputEH1",
  "AuroraOutputEH2",
  "auroraoutputrv",
  "auxpower",
  "AWLABCType",
  "AWLTStatType",
  "compressorpower",
  "dehumid_humid_sp",
  "EnteringWaterTemp",
  "fanpower",
  "homeautomationalarm1",
  "homeautomationalarm2",
  "humidity_offset_settings",
  "iz2_dehumid_humid_sp",
  "iz2_humidity_offset_settings",
  "lastfault",
  "lastlockout",
  "LeavingAirTemp",
  "lockoutstatus",
  "looppumppower",
  "ModeOfOperation",
  "totalunitpower",
  "TStatActiveSetpoint",
  "TStatCoolingSetpoint",
  "TStatDehumidSetpoint",
  "TStatHeatingSetpoint",
  "TStatMode",
  "TStatRelativeHumidity",
  "TStatRoomTemp"]

/-- The elements a Python for-loop iterates over.  The login payload nests
locations and gateways in JSON arrays; the claims never exercise a payload
where these fields hold a non-array (Python would raise TypeError there). -/
def jsonItems : Json → List Json
  | .arr xs => xs
  | _ => []

/-- A dict.get with a default value. -/
def jsonGetD (j : Json) (key : String) (d : Json) : Json := (j.get key).getD d

/-- The inner matching of AWL.get_gwid_param: the first gateway whose gwid
field equals the requested string decides the result (its param field, or
None when that gateway lacks it). -/
def findGatewayParam : List Json → String → String → Option Json
  | [], _, _ => none
  | g :: rest, gwid, param =>
    match g.get "gwid" with
    | some (.str s) =>
      if s = gwid then g.get param else findGatewayParam rest gwid param
    | _ => findGatewayParam rest gwid param

/-- AWL.get_gwid_param: None when no login payload is stored; otherwise scan
locations and their gateways in order (nested loops flattened, first match
returns). -/
def get_gwid_param (login_data : Option Json) (gwid param : String) : Option Json :=
  match login_data with
  | none => none
  | some ld =>
    let locations := jsonItems (jsonGetD ld "locations" (.arr []))
    let gateways :=
      locations.foldr (fun loc acc => jsonItems (jsonGetD loc "gateways" (.arr [])) ++ acc) []
    findGatewayParam gateways gwid param

/-- The zone loop of AWL.read: starting from the baseline list, extend with
the roomtemp and activesettings names for every zone index from 1 through n
(range(1, max_zones + 1) with list.extend). -/
def extend_zone_rlist (n : Nat) : List String :=
  (List.range' 1 n).foldl
    (fun acc zoneid =>
      acc ++ ["iz2_z" ++ toString zoneid ++ "_roomtemp",
              "iz2_z" ++ toString zoneid ++ "_activesettings"])
    AWL_GATEWAY_RLIST

/-- The rlist built by AWL.read for a device: look up iz2_max_zones for the
device in the login payload; when the value is truthy, add the two per-zone
names for every zone index, otherwise request exactly the baseline.
A truthy non-integer value would make range raise TypeError (a Python bool
is an integer, True counting as 1). -/
def read_rlist (login_data : Option Json) (awlid : String) :
    Except PyErr (List String) :=
  match get_gwid_param login_data awlid "iz2_max_zones" with
  | none => .ok AWL_GATEWAY_RLIST
  | some v =>
    if v.truthy then
      match v with
      | .num n => .ok (extend_zone_rlist n.toNat)
      | .bool b => .ok (extend_zone_rlist (cond b 1 0))
      | _ => .error .typeError
    else .ok AWL_GATEWAY_RLIST

/-! ### Helper lemmas -/

theorem foldl_extend_eq_flatMap {α β : Type} (f : α → List β) :
    ∀ (xs : List α) (base : List β),
      xs.foldl (fun acc x => acc ++ f x) base = base ++ xs.flatMap f
  | [], base => by simp
  | x :: xs, base => by
    simp only [List.foldl_cons, List.flatMap_cons,
      foldl_extend_eq_flatMap f xs (base ++ f x), List.append_assoc]

theorem length_flatMap_pairs (g h : Nat → String) (xs : List Nat) :
    (xs.flatMap (fun i => [g i, h i])).length = 2 * xs.length := by
  induction xs with
  | nil => simp
  | cons x xs ih => simp [ih]; omega

/-- Claim C5: for every device whose login payload records a maximum-zone
count N greater than zero, the read command's attribute list is exactly the
fixed baseline followed by the two per-zone names iz2_z-i-_roomtemp and
iz2_z-i-_activesettings for every i in 1..N (2N extra names); when the
count is absent or zero, the list is exactly the baseline. -/
theorem read_rlist_zone_attributes (login : Option Json) (awlid : String) (N : Nat) :
    (0 < N →
      get_gwid_param login awlid "iz2_max_zones" = some (.num (N : Int)) →
      read_rlist login awlid
        = .ok (AWL_GATEWAY_RLIST
            ++ (List.range' 1 N).flatMap (fun i =>
                  ["iz2_z" ++ toString i ++ "_roomtemp",
                   "iz2_z" ++ toString i ++ "_activesettings"]))
      ∧ (AWL_GATEWAY_RLIST
            ++ (List.range' 1 N).flatMap (fun i =>
                  ["iz2_z" ++ toString i ++ "_roomtemp",
                   "iz2_z" ++ toString i ++ "_activesettings"])).length
          = AWL_GATEWAY_RLIST.length + 2 * N)
    ∧ (get_gwid_param login awlid "iz2_max_zones" = none →
        read_rlist login awlid = .ok AWL_GATEWAY_RLIST)
    ∧ (get_gwid_param login awlid "iz2_max_zones" = some (.num 0) →
        read_rlist login awlid = .ok AWL_GATEWAY_RLIST) := by
  refine ⟨fun hN h => ⟨?_, ?_⟩, fun h => ?_, fun h => ?_⟩
  · have htr : Json.truthy (.num (N : Int)) = true := by
      simp [Json.truthy]
      omega
    simp only [read_rlist, h, htr, if_true]
    simp only [extend_zone_rlist, Int.toNat_ofNat,
      foldl_extend_eq_flatMap (fun i =>
        ["iz2_z" ++ toString i ++ "_roomtemp",
         "iz2_z" ++ toString i ++ "_activesettings"]) (List.range' 1 N)
        AWL_GATEWAY_RLIST]
  · rw [List.length_append,
      length_flatMap_pairs (fun i => "iz2_z" ++ toString i ++ "_roomtemp")
        (fun i => "iz2_z" ++ toString i ++ "_activesettings")]
    simp
  · simp [read_rlist, h]
  · simp [read_rlist, h, Json.truthy, extend_zone_rlist]

/-- A concrete login payload with one gateway GW1 configured for 2 zones. -/
def loginW : Json :=
  .obj [("success", .bool true),
        ("locations", .arr [
          .obj [("description", .str "Home"),
                ("gateways", .arr [
                  .obj [("gwid", .str "GW1"),
                        ("description", .str "System"),
                        ("iz2_max_zones", .num 2)]])]])]

/-- Witness for C5 at the concrete payload loginW with N = 2. -/
theorem read_rlist_zone_attributes_witness :
    0 < 2
    ∧ get_gwid_param (some loginW) "GW1" "iz2_max_zones" = some (.num (2 : Nat))
    ∧ read_rlist (some loginW) "GW1"
        = .ok (AWL_GATEWAY_RLIST
            ++ (List.range' 1 2).flatMap (fun i =>
                  ["iz2_z" ++ toString i ++ "_roomtemp",
                   "iz2_z" ++ toString i ++ "_activesettings"])) :=
  ⟨by decide, rfl,
   ((read_rlist_zone_attributes (some loginW) "GW1" 2).1 (by decide) rfl).1⟩

theorem lookup_update_map {κ α : Type} [DecidableEq κ] (k : κ) (v : α) :
    ∀ (l : List (κ × α)), (dictLookup l k).isSome = true →
      dictLookup (l.map (fun p => if p.1 = k then (k, v) else p)) k = some v
  | [], h => by simp [dictLookup] at h
  | (a, b) :: rest, h => by
    by_cases hk : a = k
    · subst hk
      have hhead : ((a, b) :: rest).map (fun p => if p.1 = a then (a, v) else p)
          = (a, v) :: rest.map (fun p => if p.1 = a then (a, v) else p) := by
        simp
      rw [hhead]
      simp [dictLookup]
    · have hhead : ((a, b) :: rest).map (fun p => if p.1 = k then (k, v) else p)
          = (a, b) :: rest.map (fun p => if p.1 = k then (k, v) else p) := by
        simp [hk]
      rw [hhead]
      have hh : (dictLookup rest k).isSome = true := by
        simpa [dictLookup, hk] using h
      simpa [dictLookup, hk] using lookup_update_map k v rest hh

theorem lookup_append_single {κ α : Type} [DecidableEq κ] (k : κ) (v : α) :
    ∀ (l : List (κ × α)), dictLookup l k = none →
      dictLookup (l ++ [(k, v)]) k = some v
  | [], _ => by simp [dictLookup]
  | (a, b) :: rest, h => by
    by_cases hk : a = k
    · simp [dictLookup, hk] at h
    · simp only [dictLookup, hk, if_false] at h
      simp only [List.cons_append, dictLookup, hk, if_false]
      exact lookup_append_single k v rest h

theorem dictLookup_insert_self {κ α : Type} [DecidableEq κ] (l : List (κ × α))
    (k : κ) (v : α) : dictLookup (dictInsert l k v) k = some v := by
  unfold dictInsert
  split
  · exact lookup_update_map k v l (by assumption)
  · rename_i h
    exact lookup_append_single k v l (Option.not_isSome_iff_eq_none.mp h)

/-- Claim C4: within the configured window a second call with the same key
returns the identical cached value without invoking the wrapped operation;
a call at or past the shared expiry timestamp invokes the wrapped operation
again and has swept the entire cache, so no other key remains; a failing
wrapped call propagates its failure and caches nothing. -/
theorem timed_cache_window (delta : Nat) (st st1 : CacheState) (now1 now2 : Nat)
    (key : String) (f1 f2 : Except String Json) (v : Json) (em : String) :
    (cached_call delta st now1 key f1 = (st1, .ok v, true) →
      now2 < st1.next_update →
      cached_call delta st1 now2 key f2 = (st1, .ok v, false))
    ∧ (st.next_update ≤ now2 →
        (cached_call delta st now2 key f2).2.2 = true
        ∧ ∀ k2, k2 ≠ key →
            dictLookup (cached_call delta st now2 key f2).1.cache k2 = none)
    ∧ (dictLookup (cacheSweep delta st now2).cache key = none →
        cached_call delta st now2 key (.error em)
          = (cacheSweep delta st now2, .error em, true)
        ∧ dictLookup (cached_call delta st now2 key (.error em)).1.cache key
            = none) := by
  refine ⟨fun h1 h2 => ?_, fun h => ?_, fun h => ?_⟩
  · -- the first call must have taken the miss-and-store branch
    have hlook : dictLookup st1.cache key = some v := by
      unfold cached_call at h1
      rcases hl : dictLookup (cacheSweep delta st now1).cache key with _ | w
      · rw [hl] at h1
        cases f1 with
        | error e => simp at h1
        | ok w =>
          simp only [Prod.mk.injEq, Except.ok.injEq, and_true] at h1
          obtain ⟨hst, hwv⟩ := h1
          rw [← hst, ← hwv]
          exact dictLookup_insert_self _ key w
      · rw [hl] at h1
        simp at h1
    have hsweep : cacheSweep delta st1 now2 = st1 := by
      unfold cacheSweep
      rw [if_neg (by omega)]
    unfold cached_call
    rw [hsweep, hlook]
  · -- the sweep empties the cache, so the call is a miss
    have hsweep : cacheSweep delta st now2 = ⟨[], now2 + delta⟩ := by
      unfold cacheSweep
      rw [if_pos h]
    cases f2 with
    | error e =>
      refine ⟨by simp [cached_call, hsweep, dictLookup], fun k2 hk2 => ?_⟩
      simp [cached_call, hsweep, dictLookup]
    | ok w =>
      refine ⟨by simp [cached_call, hsweep, dictLookup], fun k2 hk2 => ?_⟩
      simp [cached_call, hsweep, dictLookup, dictInsert, Ne.symm hk2]
  · unfold cached_call
    rw [h]
    exact ⟨rfl, h⟩

/-- Witness for C4: a fresh value is stored at time 2 (window 10, expiry 5),
and a second call at time 3 returns the identical value without invoking the
wrapped operation, even though that operation would now fail. -/
theorem timed_cache_window_witness :
    cached_call 10 ⟨[("other", .num 1)], 5⟩ 2 "k" (.ok (.num 7))
        = (⟨[("other", .num 1), ("k", .num 7)], 5⟩, .ok (.num 7), true)
    ∧ (3 : Nat) < 5
    ∧ cached_call 10 ⟨[("other", .num 1), ("k", .num 7)], 5⟩ 3 "k" (.error "boom")
        = (⟨[("other", .num 1), ("k", .num 7)], 5⟩, .ok (.num 7), false) :=
  ⟨rfl, by decide,
   (timed_cache_window 10 ⟨[("other", .num 1)], 5⟩
      ⟨[("other", .num 1), ("k", .num 7)], 5⟩ 2 3 "k" (.ok (.num 7))
      (.error "boom") (.num 7) "x").1 rfl (by decide)⟩

theorem dictLookup_some_mem {κ α : Type} [DecidableEq κ] :
    ∀ {l : List (κ × α)} {k : κ} {v : α}, dictLookup l k = some v → (k, v) ∈ l
  | [], _, _, h => by simp [dictLookup] at h
  | (a, b) :: rest, k, v, h => by
    by_cases hk : a = k
    · subst hk
      simp [dictLookup] at h
      subst h
      exact List.mem_cons_self _ _
    · simp only [dictLookup, if_neg hk] at h
      exact List.mem_cons_of_mem _ (dictLookup_some_mem h)

theorem mem_lookup_of_nodup {κ α : Type} [DecidableEq κ] :
    ∀ {l : List (κ × α)} {k : κ} {v : α}, (dictKeys l).Nodup → (k, v) ∈ l →
      dictLookup l k = some v
  | [], _, _, _, hm => by simp at hm
  | (a, b) :: rest, k, v, hnd, hm => by
    have hnd' : (a :: dictKeys rest).Nodup := by simpa [dictKeys] using hnd
    rcases List.mem_cons.mp hm with heq | hrest
    · rw [show k = a from (Prod.mk.injEq .. |>.mp heq.symm).1.symm,
        show v = b from (Prod.mk.injEq .. |>.mp heq.symm).2.symm]
      simp [dictLookup]
    · by_cases hk : a = k
      · exfalso
        subst hk
        exact (List.nodup_cons.mp hnd').1
          (List.mem_map.mpr ⟨(a, v), hrest, rfl⟩)
      · simp only [dictLookup, if_neg hk]
        exact mem_lookup_of_nodup (List.nodup_cons.mp hnd').2 hrest

theorem liveKeys_nodup (l : List (Nat × FutureState))
    (h : (dictKeys l).Nodup) : (liveKeys l).Nodup :=
  h.sublist ((List.filter_sublist l).map Prod.fst)

theorem isLive_mem_liveKeys {st : AWLState} {tid : Nat}
    (h : isLive st tid = true) : tid ∈ liveKeys st.transactions := by
  unfold isLive at h
  rcases hl : dictLookup st.transactions tid with _ | f
  · rw [hl] at h
    simp at h
  · rw [hl] at h
    exact List.mem_map.mpr
      ⟨(tid, f), List.mem_filter.mpr ⟨dictLookup_some_mem hl, h⟩, rfl⟩

theorem mem_liveKeys_isLive {st : AWLState} {tid : Nat}
    (hnd : (dictKeys st.transactions).Nodup)
    (h : tid ∈ liveKeys st.transactions) : isLive st tid = true := by
  obtain ⟨⟨k, f⟩, hmemf, hfst⟩ := List.mem_map.mp h
  obtain ⟨hmem, hdone⟩ := List.mem_filter.mp hmemf
  cases hfst
  unfold isLive
  rw [mem_lookup_of_nodup hnd hmem]
  exact hdone

/-- Claim C9: resetAll aborts every currently live transaction exactly once
with the cancelled reason (a cancelled future resolves to the
Transaction-cancelled transaction error), resets the cursor to 0 and empties
the table, and the first allocate after the reset yields identifier 1. -/
theorem reset_all_spec (st : AWLState)
    (hnd : (dictKeys st.transactions).Nodup) :
    (∀ tid, isLive st tid = true →
      (reset_transaction_id st).2.count tid = 1)
    ∧ (∀ tid, isLive st tid = false →
        (reset_transaction_id st).2.count tid = 0)
    ∧ await_transaction_result false .cancelled
        = some (.error (.transactionError (some (.str "Transaction cancelled"))))
    ∧ (reset_transaction_id st).1.transactions = []
    ∧ (reset_transaction_id st).1.transaction_id = 0
    ∧ allocate (reset_transaction_id st).1
        = .ok (1, { transactions := [(1, .pending)], transaction_id := 1,
                    login_data := none, connected := st.connected }) := by
  refine ⟨fun tid h => ?_, fun tid h => ?_, rfl, rfl, rfl, rfl⟩
  · exact List.count_eq_one_of_mem (liveKeys_nodup _ hnd) (isLive_mem_liveKeys h)
  · refine List.count_eq_zero_of_not_mem fun hmem => ?_
    rw [mem_liveKeys_isLive hnd hmem] at h
    cases h

/-- A concrete table for the C9 witness: tids 1 and 3 live, tid 2 already
timed out (cancelled). -/
def stResetW : AWLState :=
  { transactions := [(1, .pending), (2, .cancelled), (3, .pending)],
    transaction_id := 3, login_data := some (.num 5), connected := true }

/-- Witness for C9 on stResetW. -/
theorem reset_all_spec_witness :
    (dictKeys stResetW.transactions).Nodup
    ∧ isLive stResetW 1 = true
    ∧ (reset_transaction_id stResetW).2.count 1 = 1
    ∧ isLive stResetW 2 = false
    ∧ (reset_transaction_id stResetW).2.count 2 = 0
    ∧ allocate (reset_transaction_id stResetW).1
        = .ok (1, { transactions := [(1, .pending)], transaction_id := 1,
                    login_data := none, connected := true }) :=
  ⟨by decide, rfl, (reset_all_spec stResetW (by decide)).1 1 rfl, rfl,
   (reset_all_spec stResetW (by decide)).2.1 2 rfl,
   (reset_all_spec stResetW (by decide)).2.2.2.2.2⟩

/-- Claim C10: every transaction-table reset also clears the stored login
payload; while the payload is absent every non-login command is rejected;
a send on a closed socket resets the table, leaving the payload cleared;
a successful login command installs the fresh payload. -/
theorem reset_clears_login_payload (st : AWLState) (cmd : String)
    (args : List (String × Json)) (send : SendOutcome) (sid : String) (d : Json)
    (tid : Nat) (st1 : AWLState) (hcmd : cmd ≠ "login") :
    (reset_transaction_id st).1.login_data = none
    ∧ (st.login_data = none →
        _command cmd args st send
          = (st, [],
             .error (.connectionError "Call awl.connect() before making requests")))
    ∧ (st.connected = true → next_transaction_id st = .ok (tid, st1) →
        (_command "login" args st .connectionClosed).1.login_data = none)
    ∧ (st.connected = true →
        (websockets_login sid st .ok (.ok d)).1.login_data = some d) := by
  refine ⟨rfl, fun hld => ?_, fun hconn hnext => ?_, fun hconn => ?_⟩
  · have hcond : ((cmd != "login" && st.login_data.isNone) || !st.connected)
        = true := by
      rw [hld]
      simp [bne_iff_ne, hcmd]
    unfold _command
    rw [hcond]
    rfl
  · have hcond : (("login" != "login" && st.login_data.isNone) || !st.connected)
        = false := by
      rw [hconn]
      simp
    unfold _command
    rw [hcond, hnext]
    rfl
  · have hst : reset_transaction_id st
        = ({ transactions := [], transaction_id := 0, login_data := none,
             connected := true }, liveKeys st.transactions) := by
      unfold reset_transaction_id
      rw [hconn]
    unfold websockets_login
    rw [hst]
    rfl

/-- A concrete client state for the C10 witness: connected, one transaction
in flight, no login payload stored yet. -/
def stC10 : AWLState :=
  { transactions := [(1, .pending)], transaction_id := 1,
    login_data := none, connected := true }

/-- Witness for C10 on stC10. -/
theorem reset_clears_login_payload_witness :
    ("read" : String) ≠ "login"
    ∧ stC10.login_data = none
    ∧ stC10.connected = true
    ∧ next_transaction_id stC10
        = .ok (2, { transactions := [(1, .pending)], transaction_id := 2,
                    login_data := none, connected := true })
    ∧ _command "read" [] stC10 .ok
        = (stC10, [],
           .error (.connectionError "Call awl.connect() before making requests"))
    ∧ (_command "login" [] stC10 .connectionClosed).1.login_data = none
    ∧ (websockets_login "S" stC10 .ok (.ok (.num 9))).1.login_data
        = some (.num 9) := by
  have h := reset_clears_login_payload stC10 "read" [] .ok "S" (.num 9) 2
      { transactions := [(1, .pending)], transaction_id := 2,
        login_data := none, connected := true }
      (by decide)
  exact ⟨by decide, rfl, rfl, rfl, h.2.1 rfl, h.2.2.1 rfl rfl, h.2.2.2 rfl⟩

/-- Claim C7 (code bug in src/awl.py): a send attempted without an active
session is rejected, but the raised error is AWLConnectionError — the same
class raised when the socket send fails on a closed connection — not a
distinct not-connected error; src/awl.py defines no AWLNotConnectedError at
all, although src/waterfurnace.py imports and catches one.  Evaluated at the
failing input: a read command on a freshly constructed, unconnected client,
side by side with a genuine closed-socket connection error of the same
constructor. -/
theorem not_connected_raises_connection_error :
    (_command "read" [("awlid", .str "GW1"), ("zone", .num 0)] initState .ok).2.2
      = .error (.connectionError "Call awl.connect() before making requests")
    ∧ (_command "login" []
        { transactions := [], transaction_id := 0, login_data := none,
          connected := true } .connectionClosed).2.2
      = .error (.connectionError "Websockets connection closed") :=
  ⟨rfl, rfl⟩

/-- Claim C6: on the send path a transaction is allocated and its pending
slot registered before the frame is transmitted (the registration event
precedes the send attempt in the event order), and a send that fails because
the connection is closed fully resets the transaction table (every live
transaction lands in the cancelled list, cursor back to 0, table emptied)
and raises the connection error to the caller. -/
theorem command_send_path (cmd : String) (args : List (String × Json))
    (st st1 : AWLState) (tid : Nat)
    (hpre : ((cmd != "login" && st.login_data.isNone) || !st.connected) = false)
    (hnext : next_transaction_id st = .ok (tid, st1)) :
    _command cmd args st .ok
      = (start_transaction tid st1,
         [.allocatedTid tid, .registeredTransaction tid,
          .sendAttempted (buildPayload cmd tid args)],
         .ok tid)
    ∧ _command cmd args st .connectionClosed
      = ((reset_transaction_id (start_transaction tid st1)).1,
         [.allocatedTid tid, .registeredTransaction tid,
          .sendAttempted (buildPayload cmd tid args), .tableReset],
         .error (.connectionError "Websockets connection closed"))
    ∧ (reset_transaction_id (start_transaction tid st1)).1.transactions = []
    ∧ (reset_transaction_id (start_transaction tid st1)).1.transaction_id = 0
    ∧ (∀ t, isLive (start_transaction tid st1) t = true →
        t ∈ (reset_transaction_id (start_transaction tid st1)).2) := by
  refine ⟨?_, ?_, rfl, rfl, fun _ h => isLive_mem_liveKeys h⟩
  · unfold _command
    rw [hpre, hnext]
    rfl
  · unfold _command
    rw [hpre, hnext]
    rfl

/-- A concrete connected, logged-in state for the C6 witness. -/
def stC6 : AWLState :=
  { transactions := [(3, .pending)], transaction_id := 3,
    login_data := some (.num 1), connected := true }

/-- Witness for C6 on stC6 with a read command. -/
theorem command_send_path_witness :
    (("read" != "login" && stC6.login_data.isNone) || !stC6.connected) = false
    ∧ next_transaction_id stC6
        = .ok (4, { transactions := [(3, .pending)], transaction_id := 4,
                    login_data := some (.num 1), connected := true })
    ∧ _command "read" [("awlid", .str "GW1")] stC6 .ok
        = (start_transaction 4
            { transactions := [(3, .pending)], transaction_id := 4,
              login_data := some (.num 1), connected := true },
           [.allocatedTid 4, .registeredTransaction 4,
            .sendAttempted (buildPayload "read" 4 [("awlid", .str "GW1")])],
           .ok 4)
    ∧ (_command "read" [("awlid", .str "GW1")] stC6 .connectionClosed).1.transactions
        = []
    ∧ (_command "read" [("awlid", .str "GW1")] stC6 .connectionClosed).2.2
        = .error (.connectionError "Websockets connection closed") := by
  have h := command_send_path "read" [("awlid", .str "GW1")] stC6
      { transactions := [(3, .pending)], transaction_id := 4,
        login_data := some (.num 1), connected := true } 4 (by decide) rfl
  refine ⟨by decide, rfl, h.1, ?_, ?_⟩
  · rw [h.2.1]
    exact h.2.2.1
  · rw [h.2.1]

/-- Claim C2: when the renewal timer fires first, the client cancels the
receive loop within a bounded grace period (failure to settle in time raises
the connection error), performs the full logout, login and reconnect cycle
on the already-known websockets uri, resets the table so that every
transaction in flight at that moment is cancelled (resolving for its awaiter
as the Transaction-cancelled abort), and the login command sent on the
renewed session is allocated the fresh identifier 1 from the reset cursor. -/
theorem renewal_timer_race (uri sid : String) (st : AWLState) :
    handler_on_timeout uri sid st false
      = .error
          (.connectionError "Could not cancel receive task during session renewal")
    ∧ handler_on_timeout uri sid st true
      = .ok ({ transactions := [(1, .pending)], transaction_id := 1,
               login_data := none, connected := true },
             [.cancelReceiveTask, .closeWebsocket, .httpLogout, .httpLogin,
              .websocketsConnect uri, .resetTable, .loginCommandSent 1],
             liveKeys st.transactions, 1)
    ∧ (∀ t, isLive st t = true → t ∈ liveKeys st.transactions)
    ∧ await_transaction_result false .cancelled
        = some (.error (.transactionError (some (.str "Transaction cancelled")))) :=
  ⟨rfl, rfl, fun _ h => isLive_mem_liveKeys h, rfl⟩

/-- A state with transaction 7 in flight for the C2 witness. -/
def stC2 : AWLState :=
  { transactions := [(7, .pending)], transaction_id := 7,
    login_data := some (.num 3), connected := true }

/-- Witness for C2 on stC2: the in-flight transaction 7 is cancelled by the
renewal and the renewed login gets tid 1. -/
theorem renewal_timer_race_witness :
    isLive stC2 7 = true
    ∧ handler_on_timeout "wss://awl" "S" stC2 true
        = .ok ({ transactions := [(1, .pending)], transaction_id := 1,
                 login_data := none, connected := true },
               [.cancelReceiveTask, .closeWebsocket, .httpLogout, .httpLogin,
                .websocketsConnect "wss://awl", .resetTable, .loginCommandSent 1],
               [7], 1)
    ∧ (7 : Nat) ∈ liveKeys stC2.transactions :=
  ⟨rfl, (renewal_timer_race "wss://awl" "S" stC2).2.1,
   (renewal_timer_race "wss://awl" "S" stC2).2.2.1 7 rfl⟩

/-- A state with transactions 1 and 2 in flight, for the C3 counterexample. -/
def stRecv : AWLState :=
  { transactions := [(1, .pending), (2, .pending)], transaction_id := 2,
    login_data := none, connected := true }

/-- A well-formed JSON frame lacking a transaction identifier. -/
def frameNoTid : RawFrame := .parsed (.obj [("awlid", .str "X")])

/-- A well-formed err frame for transaction 1. -/
def frameErr1 : RawFrame := .parsed (.obj [("tid", .num 1), ("err", .str "boom")])

/-- A well-formed success frame for transaction 2. -/
def frameOk2 : RawFrame := .parsed (.obj [("tid", .num 2), ("ok", .bool true)])

/-- Counterexample to claim C3: the receive loop terminates on well-formed
frames, not only on malformed ones.  A frame lacking tid ends the loop with
the success frame behind it left unprocessed (first run), and an err frame
likewise aborts the transaction and then ends the loop (second run); the
third run shows the leftover frame was perfectly processable on its own. -/
theorem receive_loop_early_return_counterexample :
    websockets_receive stRecv [frameNoTid, frameOk2] = (stRecv, [], .returned)
    ∧ websockets_receive stRecv [frameErr1, frameOk2]
      = ({ transactions := [(2, .pending)], transaction_id := 2,
           login_data := none, connected := true },
         [.aborted 1 (.transactionError (some (.str "boom")))], .returned)
    ∧ websockets_receive stRecv [frameOk2]
      = ({ transactions := [(1, .pending)], transaction_id := 2,
           login_data := none, connected := true },
         [.committed 2 (.obj [("tid", .num 2), ("ok", .bool true)])],
         .socketEnded) :=
  ⟨rfl, rfl, rfl⟩

/-- Claim C3 as amended: only the completion path keeps the receive loop
running.  A malformed frame ends the loop; a well-formed frame lacking tid
is logged and ends the loop; a frame with a non-empty err field aborts the
matching transaction and then ends the loop; a frame with tid and no err
continues the loop exactly when completing it does not hit a registered but
already-done (timed-out) future. -/
theorem receive_loop_termination_amended (st : AWLState) (data tidJ : Json) :
    (websockets_receive_step st .malformed).2.2 = some .returned
    ∧ (pySubscript data "tid" = .error .keyError →
        websockets_receive_step st (.parsed data) = (st, none, some .returned))
    ∧ (pySubscript data "tid" = .ok tidJ → optTruthy (data.get "err") = true →
        (websockets_receive_step st (.parsed data)).1
          = (abort_transaction tidJ (data.get "err") st).1
        ∧ (websockets_receive_step st (.parsed data)).2.2 ≠ none)
    ∧ (pySubscript data "tid" = .ok tidJ → optTruthy (data.get "err") = false →
        ((websockets_receive_step st (.parsed data)).2.2 = none ↔
          ∀ t, (commit_transaction tidJ data st).2 ≠ .invalidState t)) := by
  refine ⟨rfl, fun h => ?_, fun h he => ?_, fun h he => ?_⟩
  · simp only [websockets_receive_step]
    rw [h]
  · simp only [websockets_receive_step]
    rw [h, he]
    rcases habort : abort_transaction tidJ (data.get "err") st with ⟨st1, out⟩
    cases out <;> simp [habort]
  · simp only [websockets_receive_step]
    rw [h, he]
    rcases hcommit : commit_transaction tidJ data st with ⟨st1, out⟩
    cases out <;> simp [hcommit]

/-- Witness for the amended C3: the err frame for the live transaction 1
aborts it and ends the loop; the success frame for transaction 2 continues
the loop. -/
theorem receive_loop_termination_amended_witness :
    pySubscript (.obj [("tid", .num 1), ("err", .str "boom")]) "tid"
      = .ok (.num 1)
    ∧ optTruthy ((Json.obj [("tid", .num 1), ("err", .str "boom")]).get "err")
      = true
    ∧ (websockets_receive_step stRecv
        (.parsed (.obj [("tid", .num 1), ("err", .str "boom")]))).2.2 ≠ none
    ∧ pySubscript (.obj [("tid", .num 2), ("ok", .bool true)]) "tid"
      = .ok (.num 2)
    ∧ optTruthy ((Json.obj [("tid", .num 2), ("ok", .bool true)]).get "err")
      = false
    ∧ (websockets_receive_step stRecv
        (.parsed (.obj [("tid", .num 2), ("ok", .bool true)]))).2.2 = none :=
  ⟨rfl, rfl,
   ((receive_loop_termination_amended stRecv
      (.obj [("tid", .num 1), ("err", .str "boom")]) (.num 1)).2.2.1
      rfl rfl).2,
   rfl, rfl,
   ((receive_loop_termination_amended stRecv
      (.obj [("tid", .num 2), ("ok", .bool true)]) (.num 2)).2.2.2
      rfl rfl).mpr (fun t h => by cases h)⟩

/-- The state after transaction 1 timed out: asyncio.wait_for cancelled the
future but the entry is still registered in the transactions dict. -/
def stStale : AWLState :=
  { transactions := [(1, .cancelled)], transaction_id := 1,
    login_data := none, connected := true }

/-- Claim C8 (code bug in src/awl.py): a late frame whose tid matches a
registered but no longer live (timed-out, cancelled) transaction is not a
logged no-op: dict.pop succeeds, so the entry is removed from the table, and
Future.set_result on the cancelled future raises InvalidStateError, which
only KeyError being caught lets propagate and kill the receive loop.
Evaluated at the failing input. -/
theorem stale_frame_invalid_state :
    isLive stStale 1 = false
    ∧ commit_transaction (.num 1) (.obj [("tid", .num 1), ("ok", .bool true)])
        stStale
      = ({ transactions := [], transaction_id := 1, login_data := none,
           connected := true }, .invalidState 1)
    ∧ (websockets_receive stStale
        [.parsed (.obj [("tid", .num 1), ("ok", .bool true)])]).2.2
      = .raised .invalidStateError :=
  ⟨rfl, rfl, rfl⟩

/-! ### The transaction-table state machine (claim C1) -/

/-- The operations an interleaving on the transaction table is built from:
an allocation (AWL.__next_transaction_id plus AWL.__start_transaction), a
completion frame, an abort frame, a transaction timeout, and a table reset. -/
inductive TableOp where
  | alloc
  | complete (tid : Nat) (data : Json)
  | abort (tid : Nat) (err : Json)
  | timeoutTx (tid : Nat)
  | reset

/-- The state transition of one table operation; an operation that raises
(full table, unknown tid) leaves the state unchanged apart from what the
code itself changes. -/
def applyOp (st : AWLState) : TableOp → AWLState
  | .alloc =>
    match allocate st with
    | .ok (_, st1) => st1
    | .error _ => st
  | .complete tid data => (commit_transaction (.num (tid : Int)) data st).1
  | .abort tid err => (abort_transaction (.num (tid : Int)) (some err) st).1
  | .timeoutTx tid => timeout_transaction tid st
  | .reset => (reset_transaction_id st).1

/-- The table invariant: identifiers are registered at most once, every
registered identifier lies in 1..255, and the cursor stays below 256. -/
def TableInv (st : AWLState) : Prop :=
  (dictKeys st.transactions).Nodup
  ∧ (∀ k ∈ dictKeys st.transactions, 1 ≤ k ∧ k ≤ 255)
  ∧ st.transaction_id ≤ 255

theorem nextTidStep_ge_one (t : Nat) : 1 ≤ nextTidStep t := by
  unfold nextTidStep
  split <;> omega

theorem nextTidStep_le (t : Nat) : nextTidStep t ≤ 255 := by
  have h := Nat.mod_lt (t + 1) (show 0 < 256 by norm_num)
  unfold nextTidStep
  split <;> omega

theorem nextTidLoop_ok {txs : List (Nat × FutureState)} {initial : Nat} :
    ∀ {fuel cur c : Nat}, nextTidLoop txs initial cur fuel = some (.ok c) →
      tidEligible txs c = true ∧ 1 ≤ c ∧ c ≤ 255 := by
  intro fuel
  induction fuel with
  | zero =>
    intro cur c h
    simp [nextTidLoop] at h
  | succ n ih =>
    intro cur c h
    unfold nextTidLoop at h
    by_cases h1 : tidEligible txs (nextTidStep cur) = true
    · rw [if_pos h1] at h
      simp only [Option.some.injEq, Except.ok.injEq] at h
      subst h
      exact ⟨h1, nextTidStep_ge_one cur, nextTidStep_le cur⟩
    · rw [if_neg h1] at h
      by_cases h2 : nextTidStep cur = initial
      · rw [if_pos h2] at h
        simp at h
      · rw [if_neg h2] at h
        exact ih h

theorem next_transaction_id_ok {st : AWLState} {tid : Nat} {st1 : AWLState}
    (h : next_transaction_id st = .ok (tid, st1)) :
    tidEligible st.transactions tid = true ∧ 1 ≤ tid ∧ tid ≤ 255
    ∧ st1 = { st with transaction_id := tid } := by
  unfold next_transaction_id at h
  rcases hl : nextTidLoop st.transactions
      (if st.transaction_id = 0 then 1 else st.transaction_id)
      st.transaction_id 256 with _ | r
  · rw [hl] at h
    simp at h
  · rw [hl] at h
    cases r with
    | error e => simp at h
    | ok c =>
      simp only [Except.ok.injEq, Prod.mk.injEq] at h
      obtain ⟨rfl, rfl⟩ := h
      obtain ⟨he, h1, h2⟩ := nextTidLoop_ok hl
      exact ⟨he, h1, h2, rfl⟩

/-- What a successful allocation gives back: an identifier in 1..255 that no
live transaction currently holds, registered as a fresh pending slot. -/
theorem allocate_ok_spec {st : AWLState} {tid : Nat} {st2 : AWLState}
    (h : allocate st = .ok (tid, st2)) :
    (1 ≤ tid ∧ tid ≤ 255) ∧ isLive st tid = false
    ∧ st2 = start_transaction tid { st with transaction_id := tid } := by
  unfold allocate at h
  rcases hn : next_transaction_id st with e | ⟨tid2, stm⟩ <;> rw [hn] at h
  · simp at h
  · simp only [Except.ok.injEq, Prod.mk.injEq] at h
    obtain ⟨rfl, rfl⟩ := h
    obtain ⟨hel, h1, h2, hstm⟩ := next_transaction_id_ok hn
    refine ⟨⟨h1, h2⟩, ?_, by rw [hstm]⟩
    unfold isLive
    unfold tidEligible at hel
    rcases hlk : dictLookup st.transactions tid2 with _ | f
    · rfl
    · rw [hlk] at hel
      have hfd : f.done = true := by simpa using hel
      simp [hfd]

theorem dictLookup_none_not_mem {κ α : Type} [DecidableEq κ] :
    ∀ {l : List (κ × α)} {k : κ}, dictLookup l k = none → k ∉ dictKeys l
  | [], k, _ => by simp [dictKeys]
  | (a, b) :: rest, k, h => by
    by_cases hk : a = k
    · simp [dictLookup, hk] at h
    · simp only [dictLookup, if_neg hk] at h
      simp only [dictKeys, List.map_cons, List.mem_cons]
      rintro (rfl | hmem)
      · exact hk rfl
      · exact dictLookup_none_not_mem h hmem

theorem dictKeys_insert_present {κ α : Type} [DecidableEq κ]
    {l : List (κ × α)} {k : κ} (v : α) (h : (dictLookup l k).isSome = true) :
    dictKeys (dictInsert l k v) = dictKeys l := by
  unfold dictInsert
  rw [if_pos h]
  unfold dictKeys
  rw [List.map_map]
  apply List.map_congr_left
  intro p _
  by_cases hp : p.1 = k
  · simp [hp]
  · simp [hp]

theorem dictKeys_insert_absent {κ α : Type} [DecidableEq κ]
    {l : List (κ × α)} {k : κ} (v : α) (h : dictLookup l k = none) :
    dictKeys (dictInsert l k v) = dictKeys l ++ [k] := by
  unfold dictInsert
  rw [if_neg (by simp [h])]
  unfold dictKeys
  simp

theorem dictKeys_erase_sublist {κ α : Type} [DecidableEq κ]
    (l : List (κ × α)) (k : κ) :
    List.Sublist (dictKeys (dictErase l k)) (dictKeys l) :=
  (List.eraseP_sublist l).map Prod.fst

theorem dictKeys_map_keep {κ α : Type} (l : List (κ × α)) (g : κ × α → κ × α)
    (h : ∀ p, (g p).1 = p.1) : dictKeys (l.map g) = dictKeys l := by
  unfold dictKeys
  rw [List.map_map]
  exact List.map_congr_left (fun p _ => h p)

theorem tableInv_init : TableInv initState :=
  ⟨List.nodup_nil, by intro k hk; simp [initState, dictKeys] at hk, by decide⟩

theorem tableInv_erase {st : AWLState} (k : Nat) (h : TableInv st) :
    TableInv { st with transactions := dictErase st.transactions k } := by
  obtain ⟨hnd, hrange, hcur⟩ := h
  exact ⟨hnd.sublist (dictKeys_erase_sublist _ _),
         fun x hx => hrange x ((dictKeys_erase_sublist _ _).subset hx), hcur⟩

theorem commit_fst_inv {tidJ data : Json} {st : AWLState} (h : TableInv st) :
    TableInv (commit_transaction tidJ data st).1 := by
  unfold commit_transaction
  split
  · exact h
  · split
    · exact h
    · split
      · exact tableInv_erase _ h
      · exact tableInv_erase _ h

theorem abort_fst_inv {tidJ : Json} {err : Option Json} {st : AWLState}
    (h : TableInv st) : TableInv (abort_transaction tidJ err st).1 := by
  unfold abort_transaction
  split
  · exact h
  · split
    · exact h
    · split
      · exact tableInv_erase _ h
      · exact tableInv_erase _ h

theorem timeout_inv {st : AWLState} (tid : Nat) (h : TableInv st) :
    TableInv (timeout_transaction tid st) := by
  obtain ⟨hnd, hrange, hcur⟩ := h
  have hk : dictKeys (st.transactions.map (fun p =>
      if p.1 = tid then (p.1, if p.2.done then p.2 else .cancelled) else p))
      = dictKeys st.transactions := by
    apply dictKeys_map_keep
    intro p
    by_cases hp : p.1 = tid
    · simp [hp]
    · simp [hp]
  unfold timeout_transaction
  refine ⟨?_, ?_, hcur⟩
  · rw [hk]
    exact hnd
  · intro x hx
    rw [hk] at hx
    exact hrange x hx

theorem tableInv_reset (st : AWLState) : TableInv (reset_transaction_id st).1 :=
  ⟨List.nodup_nil,
   by intro k hk; simp [reset_transaction_id, dictKeys] at hk,
   Nat.zero_le 255⟩

theorem tableInv_alloc {st : AWLState} {tid : Nat} {st2 : AWLState}
    (hInv : TableInv st) (h : allocate st = .ok (tid, st2)) : TableInv st2 := by
  obtain ⟨⟨h1, h2⟩, hlive, hst2⟩ := allocate_ok_spec h
  obtain ⟨hnd, hrange, hcur⟩ := hInv
  subst hst2
  unfold start_transaction
  have htx : ({ st with transaction_id := tid } : AWLState).transactions
      = st.transactions := rfl
  rcases hl : dictLookup st.transactions tid with _ | f
  · have hkeys := dictKeys_insert_absent FutureState.pending hl
    refine ⟨?_, ?_, h2⟩
    · rw [htx, hkeys, List.nodup_append]
      exact ⟨hnd, List.nodup_singleton _, fun a ha hb => by
        rw [List.mem_singleton] at hb
        subst hb
        exact dictLookup_none_not_mem hl ha⟩
    · intro x hx
      rw [htx, hkeys] at hx
      rcases List.mem_append.mp hx with hx | hx
      · exact hrange x hx
      · rw [List.mem_singleton] at hx
        subst hx
        exact ⟨h1, h2⟩
  · have hsome : (dictLookup st.transactions tid).isSome = true := by
      simp [hl]
    have hkeys := dictKeys_insert_present FutureState.pending hsome
    refine ⟨?_, ?_, h2⟩
    · rw [htx, hkeys]
      exact hnd
    · intro x hx
      rw [htx, hkeys] at hx
      exact hrange x hx

theorem tableInv_applyOp {st : AWLState} (op : TableOp) (h : TableInv st) :
    TableInv (applyOp st op) := by
  cases op with
  | alloc =>
    show TableInv (match allocate st with
      | .ok (_, st1) => st1
      | .error _ => st)
    rcases ha : allocate st with e | ⟨tid, st2⟩
    · exact h
    · exact tableInv_alloc h ha
  | complete tid data => exact commit_fst_inv h
  | abort tid err => exact abort_fst_inv h
  | timeoutTx tid => exact timeout_inv tid h
  | reset => exact tableInv_reset st

theorem tableInv_foldl (ops : List TableOp) :
    ∀ st : AWLState, TableInv st → TableInv (ops.foldl applyOp st) := by
  induction ops with
  | nil => exact fun st h => h
  | cons op rest ih => exact fun st h => ih _ (tableInv_applyOp op h)

theorem nextTidLoop_all_ineligible {txs : List (Nat × FutureState)}
    (initial : Nat)
    (hall : ∀ k, 1 ≤ k → k ≤ 255 → tidEligible txs k = false) :
    ∀ fuel cur, nextTidLoop txs initial cur fuel = none
      ∨ nextTidLoop txs initial cur fuel = some (.error capacityError) := by
  intro fuel
  induction fuel with
  | zero => exact fun cur => Or.inl rfl
  | succ n ih =>
    intro cur
    unfold nextTidLoop
    rw [hall (nextTidStep cur) (nextTidStep_ge_one cur) (nextTidStep_le cur)]
    by_cases hc : nextTidStep cur = initial
    · right
      simp [hc]
    · simpa [hc] using ih (nextTidStep cur)

/-- With every identifier 1..255 live, the cursor loop cycles back to its
starting point and raises the capacity error instead of waiting. -/
theorem capacity_error_when_full {st : AWLState}
    (hall : ∀ k, 1 ≤ k → k ≤ 255 → isLive st k = true) :
    allocate st = .error capacityError := by
  have hel : ∀ k, 1 ≤ k → k ≤ 255 → tidEligible st.transactions k = false := by
    intro k h1 h2
    have hlv := hall k h1 h2
    unfold isLive at hlv
    unfold tidEligible
    rcases hlk : dictLookup st.transactions k with _ | f
    · rw [hlk] at hlv
      cases hlv
    · rw [hlk] at hlv
      simpa using hlv
  unfold allocate next_transaction_id
  rcases nextTidLoop_all_ineligible
      (if st.transaction_id = 0 then 1 else st.transaction_id) hel 256
      st.transaction_id with hl | hl <;> rw [hl]

/-- With 255 live transactions and the table invariant, every identifier in
1..255 is live (the live keys are 255 distinct values inside 1..255). -/
theorem liveCount_full_all {st : AWLState} (hinv : TableInv st)
    (hc : liveCount st.transactions = 255) :
    ∀ k, 1 ≤ k → k ≤ 255 → isLive st k = true := by
  obtain ⟨hnd, hrange, -⟩ := hinv
  have hsub : liveKeys st.transactions ⊆ List.range' 1 255 := by
    intro x hx
    have hxk : x ∈ dictKeys st.transactions :=
      ((List.filter_sublist _).map Prod.fst).subset hx
    obtain ⟨h1, h2⟩ := hrange x hxk
    rw [List.mem_range'_1]
    omega
  have hlen : (liveKeys st.transactions).length = 255 := by
    unfold liveKeys
    rw [List.length_map]
    exact hc
  have hperm : List.Perm (liveKeys st.transactions) (List.range' 1 255) :=
    ((liveKeys_nodup _ hnd).subperm hsub).perm_of_length_le
      (by rw [hlen, List.length_range'])
  intro k h1 h2
  apply mem_liveKeys_isLive hnd
  rw [hperm.mem_iff, List.mem_range'_1]
  omega

/-- Claim C1: over every interleaving of table operations starting from the
fresh client state, no two registered transactions share an identifier and
every registered identifier lies in 1..255; any successful allocation
returns an identifier in 1..255 (never 0) held by no live transaction; and
an allocation issued while 255 transactions are live fails with the
capacity error rather than waiting. -/
theorem transaction_table_allocation (ops : List TableOp) (st : AWLState)
    (hst : st = ops.foldl applyOp initState) :
    ((dictKeys st.transactions).Nodup
      ∧ ∀ k ∈ dictKeys st.transactions, 1 ≤ k ∧ k ≤ 255)
    ∧ (∀ tid st2, allocate st = .ok (tid, st2) →
        (1 ≤ tid ∧ tid ≤ 255) ∧ isLive st tid = false)
    ∧ (liveCount st.transactions = 255 →
        allocate st = .error capacityError) := by
  have hinv : TableInv st := hst ▸ tableInv_foldl ops initState tableInv_init
  exact ⟨⟨hinv.1, hinv.2.1⟩,
         fun tid st2 h => ⟨(allocate_ok_spec h).1, (allocate_ok_spec h).2.1⟩,
         fun hc => capacity_error_when_full (liveCount_full_all hinv hc)⟩

/-- 255 allocations in a row from the fresh state. -/
def opsFull : List TableOp := List.replicate 255 .alloc

/-- The state after 255 allocations: all identifiers 1..255 live. -/
def stFull : AWLState := opsFull.foldl applyOp initState

/-- The state after two allocations. -/
def stSmall : AWLState := [TableOp.alloc, TableOp.alloc].foldl applyOp initState

/-- The table holding pending transactions for every identifier 1..n. -/
def fullTable (n : Nat) : List (Nat × FutureState) :=
  (List.range' 1 n).map (fun k => (k, FutureState.pending))

theorem dictLookup_append {κ α : Type} [DecidableEq κ] :
    ∀ (l1 l2 : List (κ × α)) (k : κ),
      dictLookup (l1 ++ l2) k
        = match dictLookup l1 k with
          | some v => some v
          | none => dictLookup l2 k
  | [], _, _ => rfl
  | (a, b) :: rest, l2, k => by
    by_cases hk : a = k
    · simp [dictLookup, hk]
    · simp [dictLookup, hk, dictLookup_append rest l2 k]

theorem dictLookup_fullTable {n key : Nat} (h : n < key) :
    dictLookup (fullTable n) key = none := by
  induction n with
  | zero => rfl
  | succ m ih =>
    rw [fullTable, List.range'_concat, List.map_append, dictLookup_append]
    rw [show (List.range' 1 m).map (fun k => (k, FutureState.pending))
        = fullTable m from rfl]
    rw [ih (by omega)]
    show dictLookup [(1 + 1 * m, FutureState.pending)] key = none
    unfold dictLookup
    rw [if_neg (by omega)]
    rfl

theorem nextTidLoop_first_eligible (initial fuel : Nat)
    {txs : List (Nat × FutureState)} {cur : Nat}
    (h : tidEligible txs (nextTidStep cur) = true) :
    nextTidLoop txs initial cur (fuel + 1) = some (.ok (nextTidStep cur)) := by
  unfold nextTidLoop
  rw [if_pos h]

theorem alloc_fullTable_step (n : Nat) (h1 : n < 255) :
    allocate { transactions := fullTable n, transaction_id := n,
               login_data := none, connected := false }
      = .ok (n + 1,
             { transactions := fullTable (n + 1), transaction_id := n + 1,
               login_data := none, connected := false }) := by
  have hstep : nextTidStep n = n + 1 := by
    unfold nextTidStep
    rw [Nat.mod_eq_of_lt (by omega), if_neg (by omega)]
  have hel : tidEligible (fullTable n) (nextTidStep n) = true := by
    rw [hstep]
    unfold tidEligible
    rw [dictLookup_fullTable (by omega)]
  have hloop := nextTidLoop_first_eligible (if n = 0 then 1 else n) 255 hel
  have hsucc : fullTable (n + 1)
      = fullTable n ++ [(n + 1, FutureState.pending)] := by
    unfold fullTable
    rw [List.range'_concat, List.map_append]
    norm_num
    omega
  have hins : dictInsert (fullTable n) (n + 1) FutureState.pending
      = fullTable (n + 1) := by
    unfold dictInsert
    rw [if_neg (by simp [dictLookup_fullTable (show n < n + 1 by omega)]),
      hsucc]
  unfold allocate next_transaction_id
  rw [show (256 : Nat) = 255 + 1 from rfl, hloop, hstep]
  simp only [start_transaction]
  rw [hins]

theorem foldl_allocs (n : Nat) (h : n ≤ 255) :
    (List.replicate n TableOp.alloc).foldl applyOp initState
      = { transactions := fullTable n, transaction_id := n,
          login_data := none, connected := false } := by
  induction n with
  | zero => rfl
  | succ m ih =>
    rw [List.replicate_succ', List.foldl_append, ih (by omega),
      List.foldl_cons, List.foldl_nil]
    simp only [applyOp]
    rw [alloc_fullTable_step m (by omega)]

theorem liveCount_fullTable (n : Nat) : liveCount (fullTable n) = n := by
  unfold liveCount
  rw [List.filter_eq_self.mpr ?_]
  · unfold fullTable
    rw [List.length_map, List.length_range']
  · intro a ha
    obtain ⟨k, _, rfl⟩ := List.mem_map.mp ha
    rfl

/-- Witness for C1: after 255 allocations the table is full and the 256th
allocation fails with the capacity error; after two allocations the next
allocation returns the fresh identifier 3, which is not live. -/
theorem transaction_table_allocation_witness :
    stFull = opsFull.foldl applyOp initState
    ∧ liveCount stFull.transactions = 255
    ∧ allocate stFull = .error capacityError
    ∧ allocate stSmall
        = .ok (3, { transactions := [(1, .pending), (2, .pending), (3, .pending)],
                    transaction_id := 3, login_data := none, connected := false })
    ∧ ((1 ≤ 3 ∧ 3 ≤ 255) ∧ isLive stSmall 3 = false) := by
  have hfull : stFull
      = { transactions := fullTable 255, transaction_id := 255,
          login_data := none, connected := false } :=
    foldl_allocs 255 (by omega)
  have hlc : liveCount stFull.transactions = 255 := by
    rw [hfull]
    exact liveCount_fullTable 255
  refine ⟨rfl, hlc,
    (transaction_table_allocation opsFull stFull rfl).2.2 hlc, rfl, ?_⟩
  exact (transaction_table_allocation [TableOp.alloc, TableOp.alloc]
      stSmall rfl).2.1 3
      { transactions := [(1, .pending), (2, .pending), (3, .pending)],
        transaction_id := 3, login_data := none, connected := false } rfl
